import Mathlib

/-!
Shallow embedding of the segment-to-command synthesis core of the
misc-scripts repository: `ffcut.py` (trim-and-concat graph plan),
`ffsplit.py` (independent-trim plan), and the index-padding convention of
`rnsort.py`.

Python exceptions (failed `assert`s, `ValueError` raised by
`datetime.time`, `ValueError` raised by `int()`) are modelled with
`Except String`; the error string is the assertion message or a short
`ValueError` description. The external collaborators (`ffprobe` bit-rate
probe, `subprocess.run`) are modelled as parameters: the probe's integer
result is passed in, and a "plan" is the argument vector(s) the script
would hand to `subprocess.run`.
-/

namespace MiscScripts

/-! ### Python string primitives -/

/-- Python `str.split(sep)` with an explicit one-character separator, at the
character-list level: runs of separators are NOT collapsed (each adjacent
pair of separators yields an empty field) and the empty string yields one
empty field, exactly as in CPython. -/
def splitChar (sep : Char) : List Char → List (List Char)
  | [] => [[]]
  | c :: rest =>
    if c = sep then
      [] :: splitChar sep rest
    else
      (c :: (splitChar sep rest).headD []) :: (splitChar sep rest).tail

/-- Python `str.split(sep)` on `String`s. -/
def pySplit (sep : Char) (s : String) : List String :=
  (splitChar sep s.toList).map String.mk

/-- Python `str.strip()` on a character list: drop leading and trailing
whitespace. (CPython strips every Unicode whitespace character; the
configuration files here only ever contain `' '`, `'\t'`, `'\r'` and
`'\n'`, which is exactly `Char.isWhitespace`.) -/
def pyStripChars (cs : List Char) : List Char :=
  ((cs.dropWhile Char.isWhitespace).reverse.dropWhile Char.isWhitespace).reverse

/-- Python `str.strip()`. -/
def pyStrip (s : String) : String :=
  String.mk (pyStripChars s.toList)

/-- Numeric value of a decimal digit character. -/
def digitVal (c : Char) : Nat :=
  c.toNat - Char.toNat '0'

/-- Accumulate the value of a run of decimal digits; `none` if a
non-digit appears. -/
def digitsVal : List Char → Nat → Option Nat
  | [], acc => some acc
  | c :: rest, acc =>
    if c.isDigit then digitsVal rest (acc * 10 + digitVal c) else none

/-- Python `int(text)` on a character list: surrounding whitespace is
ignored, an optional single sign is allowed, and the remainder must be a
non-empty run of decimal digits; anything else raises `ValueError`.
(CPython additionally allows underscore digit grouping, never used by
these scripts.) -/
def pyIntChars (cs : List Char) : Except String Int :=
  match pyStripChars cs with
  | '-' :: rest =>
    match rest, digitsVal rest 0 with
    | _ :: _, some n => .ok (-(n : Int))
    | _, _ => .error "ValueError: invalid literal for int()"
  | '+' :: rest =>
    match rest, digitsVal rest 0 with
    | _ :: _, some n => .ok (n : Int)
    | _, _ => .error "ValueError: invalid literal for int()"
  | rest =>
    match rest, digitsVal rest 0 with
    | _ :: _, some n => .ok (n : Int)
    | _, _ => .error "ValueError: invalid literal for int()"

/-- Python `int(text)`. -/
def pyInt (s : String) : Except String Int :=
  pyIntChars s.toList

/-- Python `str.zfill(width)` for the non-negative numerals these scripts
feed it (CPython would move a leading sign in front of the padding; no
caller here ever pads a signed string). -/
def zfill (width : Nat) (s : String) : String :=
  if width ≤ s.length then s
  else String.mk (List.replicate (width - s.length) '0') ++ s

/-! ### `os.path` primitives (POSIX flavour, as run by the scripts) -/

/-- Python `os.path.split(p)[-1]`: the part of the path after the last
`'/'` (the whole string when there is none). -/
def basename (s : String) : String :=
  String.mk ((splitChar '/' s.toList).getLastD [])

/-- Python `os.path.join(a, b)` for two components: `b` absolute wins;
otherwise a `'/'` is inserted unless `a` is empty or already ends in
`'/'`. -/
def osPathJoin (a b : String) : String :=
  if b.toList.headD ' ' = '/' then b
  else if a = "" ∨ a.toList.getLastD ' ' = '/' then a ++ b
  else a ++ "/" ++ b

/-- Length of the extension (`'.'` included) that `os.path.splitext`
splits off from a path's final component: the suffix starting at the last
`'.'`, except that dots leading the component do not begin an
extension. -/
def splitextExtLen (base : List Char) : Nat :=
  let lead := base.takeWhile (fun c => c = '.')
  let rest := base.drop lead.length
  let revTail := rest.reverse.takeWhile (fun c => c ≠ '.')
  if revTail.length = rest.length then 0 else revTail.length + 1

/-- Python `os.path.splitext(p)`: split `p` into root and extension. -/
def splitext (p : String) : String × String :=
  let cs := p.toList
  let base := (splitChar '/' cs).getLastD []
  let n := splitextExtLen base
  (String.mk (cs.take (cs.length - n)), String.mk (cs.drop (cs.length - n)))

/-! ### `datetime.time`, as used by `ffsplit.py` -/

/-- A `datetime.time` value as `ffsplit.py` builds them. The scripts never
produce a non-zero microsecond field, so it is omitted; the constructor's
range validation is in `datetime_time` below. -/
structure PyTime where
  hour : Nat
  minute : Nat
  second : Nat
deriving DecidableEq, Repr

/-- The `datetime.time(h, m, s)` constructor: raises `ValueError` unless
`0 ≤ h < 24`, `0 ≤ m < 60` and `0 ≤ s < 60`. -/
def datetime_time (h m s : Int) : Except String PyTime :=
  if 0 ≤ h ∧ h < 24 ∧ 0 ≤ m ∧ m < 60 ∧ 0 ≤ s ∧ s < 60 then
    .ok ⟨h.toNat, m.toNat, s.toNat⟩
  else
    .error "ValueError: time field out of range"

/-! ### `ffcut.py` — trim-and-concat graph plan -/

namespace Ffcut

/-- `ffcut.parse_time`: split on `':'`, at most 3 fields, each field an
`int()`; one field is raw seconds, two are `m*60+s`, three are
`h*3600+m*60+s`. Four or more fields fail the `assert len(segment) <= 3`.
The result is a plain Python `int` of seconds. -/
def parse_time (t : String) : Except String Int :=
  match pySplit ':' t with
  | [s0] => pyInt s0
  | [s0, s1] => do
    let m ← pyInt s0
    let s ← pyInt s1
    return m * 60 + s
  | [s0, s1, s2] => do
    let h ← pyInt s0
    let m ← pyInt s1
    let s ← pyInt s2
    return h * 3600 + m * 60 + s
  | _ => .error "Malformed time format"

/-- `ffcut.parse_cfg`, over the file's lines (each `row` may carry its
trailing newline; `int()` tolerates it and `strip` handles blank rows,
exactly as in the script, so the embedding is line-content agnostic).
Rows that strip to empty are skipped; a row must split on `' '` into
exactly 2 tokens (`assert len(splitted) == 2`), both times must parse,
and the `assert end > start` rejects any segment whose end does not
strictly exceed its start. The first failure aborts the whole parse. -/
def parse_cfg : List String → Except String (List (Int × Int))
  | [] => .ok []
  | row :: rest =>
    if pyStrip row = "" then parse_cfg rest
    else
      match pySplit ' ' row with
      | [t0, t1] => do
        let start ← parse_time t0
        let stop ← parse_time t1
        if start < stop then
          let tail ← parse_cfg rest
          return (start, stop) :: tail
        else
          .error "One segment has smaller end time"
      | _ => .error "A video segment is malformed"

/-- The fragment list `res` built by the loop in `ffcut.build_filter`:
two filter strings (video trim, audio trim) per segment, labelled by the
running index `i` of `enumerate`. -/
def filter_fragments : Nat → List (Int × Int) → List String
  | _, [] => []
  | i, (start, stop) :: rest =>
    s!"[0:v]trim={start}:{stop},setpts=PTS-STARTPTS[v{i}];" ::
    s!"[0:a]atrim={start}:{stop},asetpts=PTS-STARTPTS[a{i}];" ::
    filter_fragments (i + 1) rest

/-- `ffcut.build_filter`: the fragments, then the concatenation node.
Python computes `count = round(len(res) / 2)`; `len(res)` is always even
(two fragments per segment) so the float division is exact and `round` is
the identity on it — integer division by 2 is the same value. -/
def build_filter (cfg : List (Int × Int)) : String :=
  let res := filter_fragments 0 cfg
  let count := res.length / 2
  let streams_id := String.join ((List.range count).map fun i => s!"[v{i}][a{i}]")
  String.join (res ++ [s!"{streams_id}concat=n={count}:v=1:a=1[out]"])

/-- `ffcut.build_cmd`. `get_bitrate` shells out to `ffprobe`; its integer
result is the `probed_bitrate` parameter here. (`''.join(filterarg)` in
the source joins the characters of an already-joined string — the
identity.) -/
def build_cmd (probed_bitrate : Int) (src : String) (cfg : List (Int × Int))
    (dest : String) : List String :=
  let filterarg := build_filter cfg
  let bitrate := probed_bitrate - 128000
  let filename := basename src
  let output := osPathJoin dest filename
  let name := (splitext output).1
  ["ffmpeg", "-i", src, "-filter_complex", filterarg, "-map", "[out]",
   "-c:v", "h264_nvenc", "-b:v", toString bitrate, name ++ ".mp4"]

/-- The plan-building part of `ffcut.main`: parse the configuration,
abort with exit code 1 (modelled as `Except.error`) when it is empty,
otherwise build the single encode command handed to `subprocess.run`. -/
def main_plan (probed_bitrate : Int) (src : String) (lines : List String)
    (dest : String) : Except String (List String) := do
  let cfg ← parse_cfg lines
  if cfg.length = 0 then
    .error "Received empty configuration file. Aborting"
  else
    return build_cmd probed_bitrate src cfg dest

end Ffcut

/-! ### `ffsplit.py` — independent-trim plan -/

namespace Ffsplit

/-- `ffsplit.parse_time`: same splitting as `ffcut.parse_time`, but the
fields are passed to the `datetime.time` constructor, which range-checks
them (hour < 24, minute < 60, second < 60). -/
def parse_time (t : String) : Except String PyTime :=
  match pySplit ':' t with
  | [s0] => do
    let s ← pyInt s0
    datetime_time 0 0 s
  | [s0, s1] => do
    let m ← pyInt s0
    let s ← pyInt s1
    datetime_time 0 m s
  | [s0, s1, s2] => do
    let h ← pyInt s0
    let m ← pyInt s1
    let s ← pyInt s2
    datetime_time h m s
  | _ => .error "Malformed time format"

/-- `ffsplit.t_to_td`, composed with `timedelta.total_seconds()`: the
time of day in whole seconds (microseconds are always zero here, so the
float `total_seconds()` is exactly this integer). -/
def t_to_td (t : PyTime) : Int :=
  t.hour * 3600 + t.minute * 60 + t.second

/-- `ffsplit.delta_time`: absolute difference of the two times of day,
decomposed by `divmod` into hours/minutes/seconds (exact, the totals are
integral), guarded by `assert hours <= 24`, and rebuilt with
`datetime.time` (whose own range check would also reject `hours = 24`).
The `round(...)` calls in the source round already-integral floats. -/
def delta_time (t1 t2 : PyTime) : Except String PyTime :=
  let diff := (t_to_td t2 - t_to_td t1).natAbs
  let hours := diff / 3600
  let rem := diff % 3600
  let minutes := rem / 60
  let seconds := rem % 60
  if hours ≤ 24 then
    datetime_time (hours : Int) (minutes : Int) (seconds : Int)
  else
    .error "Time is too large"

/-- `ffsplit.parse_cfg`'s per-line loop: blank lines are skipped, a line
must split on `' '` into 2 or 3 tokens, a third token has `'-'` appended
and becomes the filename marker for the segment; both times must parse.
The assert's message is the literal `'There should be '` — the intended
continuation sits on the next source line as a stray no-op expression, so
the raised `AssertionError` carries only the first half. -/
def parse_cfg_lines : List String → Except String (List (PyTime × PyTime × String))
  | [] => .ok []
  | line :: rest =>
    if pyStrip line = "" then parse_cfg_lines rest
    else
      match pySplit ' ' line with
      | [t0, t1] => do
        let a ← parse_time t0
        let b ← parse_time t1
        let tail ← parse_cfg_lines rest
        return (a, b, "") :: tail
      | [t0, t1, t2] => do
        let a ← parse_time t0
        let b ← parse_time t1
        let tail ← parse_cfg_lines rest
        return (a, b, t2 ++ "-") :: tail
      | _ => .error "There should be "

/-- `ffsplit.parse_cfg`: split the file's content on `'\n'` and run the
per-line loop. -/
def parse_cfg (cfg : String) : Except String (List (PyTime × PyTime × String)) :=
  parse_cfg_lines (pySplit '\n' cfg)

/-- `datetime.time.isoformat()` for the zero-microsecond times this
script builds: `HH:MM:SS`, each field zero-padded to two digits. -/
def isoformat (t : PyTime) : String :=
  zfill 2 (toString t.hour) ++ ":" ++ zfill 2 (toString t.minute) ++ ":" ++
    zfill 2 (toString t.second)

/-- `ffsplit.get_dest_name`: `str(i).zfill(2)` for the index, basename
and extension split of the source, joined under `dest` as
`{pfx}{name}-{index}{ext}`. -/
def get_dest_name (src : String) (i : Nat) (dest : String) (pfx : String) : String :=
  let index := zfill 2 (toString i)
  let filename := basename src
  let parts := splitext filename
  osPathJoin dest (pfx ++ parts.1 ++ "-" ++ index ++ parts.2)

/-- The loop body of `ffsplit.consutruct_commands` with its `enumerate`
index made explicit. -/
def consutruct_from (src dest : String) :
    Nat → List (PyTime × PyTime × String) → Except String (List (List String))
  | _, [] => .ok []
  | i, (start, stop, pfx) :: rest => do
    let delta ← delta_time start stop
    let dest_file := get_dest_name src i dest pfx
    let tail ← consutruct_from src dest (i + 1) rest
    return ["ffmpeg", "-ss", isoformat start, "-i", src,
            "-to", isoformat delta, "-c", "copy", dest_file] :: tail

/-- `ffsplit.consutruct_commands` (sic): one `ffmpeg -ss … -to … -c copy`
command per segment, in input order. -/
def consutruct_commands (src : String) (cfg : List (PyTime × PyTime × String))
    (dest : String) : Except String (List (List String)) :=
  consutruct_from src dest 0 cfg

/-- The plan-building part of `ffsplit.main`: parse the configuration and
construct the command list. There is no emptiness check: `main` goes
straight from `parse_cfg` to `consutruct_commands`. -/
def main_plan (src : String) (content : String) (dest : String) :
    Except String (List (List String)) := do
  let cfg ← parse_cfg content
  consutruct_commands src cfg dest

end Ffsplit

/-! ### `rnsort.py` — the bulk-rename padding convention -/

namespace Rnsort

/-- The zero-pad width computed in `rnsort.main`:
`max(floor(log10(count)) + 1, 2)` (exact for the counts at issue;
`main` guarantees `count ≥ 2` before this line runs). -/
def pad_width (count : Nat) : Nat :=
  max (Nat.log 10 count + 1) 2

end Rnsort

/-! ### Helper definitions used by the statements below -/

/-- The concatenation tail of a graph-plan filter expression whose node
count is `n`: the `[v0][a0]…` label pairs in index order followed by the
`concat` node. The graph-plan claim asserts `build_filter` emits exactly
this with `n = len(SegmentList)`. -/
def concat_node (n : Nat) : String :=
  String.join ((List.range n).map fun i => s!"[v{i}][a{i}]") ++
    "concat=n=" ++ toString n ++ ":v=1:a=1[out]"

/-- Decomposition of a second count into hour/minute/second fields; the
form the independent-trim claim asserts for the clip duration. -/
def seconds_to_time (n : Nat) : PyTime :=
  ⟨n / 3600, n % 3600 / 60, n % 3600 % 60⟩

/-- The head command of a successfully built trim plan. -/
def firstCmd (e : Except String (List (List String))) : Option (List String) :=
  match e with
  | .ok cmds => cmds.head?
  | .error _ => none

/-- A 150-segment configuration (the padding claim's `count = 150`
instance). -/
def cfg150 : List (PyTime × PyTime × String) :=
  List.replicate 150 (⟨0, 0, 0⟩, ⟨0, 0, 1⟩, "")

end MiscScripts

deriving instance DecidableEq for Except

namespace MiscScripts

/-! ### General lemmas about the string primitives -/

lemma splitChar_of_not_mem {sep : Char} {cs : List Char} (h : sep ∉ cs) :
    splitChar sep cs = [cs] := by
  induction cs with
  | nil => rfl
  | cons c t ih =>
    have hc : ¬c = sep := fun hc => h (hc ▸ List.mem_cons_self c t)
    have ht : sep ∉ t := fun hm => h (List.mem_cons_of_mem c hm)
    simp [splitChar, hc, ih ht]

lemma splitChar_append_sep {sep : Char} (a rest : List Char) (h : sep ∉ a) :
    splitChar sep (a ++ sep :: rest) = a :: splitChar sep rest := by
  induction a with
  | nil => simp [splitChar]
  | cons c t ih =>
    have hc : ¬c = sep := fun hc => h (hc ▸ List.mem_cons_self c t)
    have ht : sep ∉ t := fun hm => h (List.mem_cons_of_mem c hm)
    simp [splitChar, hc, ih ht]

lemma string_append_assoc (a b c : String) : a ++ b ++ c = a ++ (b ++ c) := by
  apply String.ext
  simp [String.data_append]

lemma string_toList_append (a b : String) : (a ++ b).toList = a.toList ++ b.toList := by
  cases a; cases b; rfl

lemma string_mk_toList (s : String) : String.mk s.toList = s := by cases s; rfl

lemma join_append_singleton (xs : List String) (x : String) :
    String.join (xs ++ [x]) = String.join xs ++ x := by
  simp [String.join, List.foldl_append]

lemma pySplit_of_not_mem {sep : Char} {s : String} (h : sep ∉ s.toList) :
    pySplit sep s = [s] := by
  rw [pySplit, splitChar_of_not_mem h]
  simp [string_mk_toList]

lemma pySplit_colon_three (a b c : String)
    (ha : ':' ∉ a.toList) (hb : ':' ∉ b.toList) (hc : ':' ∉ c.toList) :
    pySplit ':' (a ++ ":" ++ b ++ ":" ++ c) = [a, b, c] := by
  have hl : (a ++ ":" ++ b ++ ":" ++ c).toList
      = a.toList ++ ':' :: (b.toList ++ ':' :: c.toList) := by
    simp [string_toList_append]
  rw [pySplit, hl, splitChar_append_sep _ _ ha, splitChar_append_sep _ _ hb,
    splitChar_of_not_mem hc]
  simp [string_mk_toList]

lemma pyInt_zfill_two : ∀ n : Nat, n < 60 →
    pyInt (zfill 2 (toString n)) = .ok (n : Int) ∧
    ':' ∉ (zfill 2 (toString n)).toList := by decide

lemma zfill_length (w : Nat) (s : String) : (zfill w s).length = max w s.length := by
  rw [zfill]
  split
  · omega
  · rw [String.length_append, String.length_mk, List.length_replicate]
    omega

/-! ### Lemmas about `datetime.time` and the time parsers -/

lemma datetime_time_ok_bounds {h m s : Int} {t : PyTime}
    (hk : datetime_time h m s = .ok t) :
    t.hour < 24 ∧ t.minute < 60 ∧ t.second < 60 ∧ t = ⟨h.toNat, m.toNat, s.toNat⟩ := by
  rw [datetime_time] at hk
  split at hk
  · rename_i hcond
    obtain ⟨h1, h2, h3, h4, h5, h6⟩ := hcond
    simp only [Except.ok.injEq] at hk
    subst hk
    refine ⟨?_, ?_, ?_, rfl⟩ <;> simp <;> omega
  · exact Except.noConfusion hk

lemma datetime_time_ok_of_bounds {h m s : Int} (h1 : 0 ≤ h) (h2 : h < 24)
    (h3 : 0 ≤ m) (h4 : m < 60) (h5 : 0 ≤ s) (h6 : s < 60) :
    datetime_time h m s = .ok ⟨h.toNat, m.toNat, s.toNat⟩ := by
  rw [datetime_time, if_pos]
  exact ⟨h1, h2, h3, h4, h5, h6⟩

lemma ffsplit_parse_time_bounds {s : String} {t : PyTime}
    (h : Ffsplit.parse_time s = .ok t) :
    t.hour < 24 ∧ t.minute < 60 ∧ t.second < 60 := by
  rw [Ffsplit.parse_time] at h
  split at h
  · rename_i s0 heq
    cases h0 : pyInt s0 with
    | error e => simp only [h0, Bind.bind, Except.bind] at h; exact Except.noConfusion h
    | ok v =>
      simp only [h0, Bind.bind, Except.bind] at h
      obtain ⟨b1, b2, b3, _⟩ := datetime_time_ok_bounds h
      exact ⟨b1, b2, b3⟩
  · rename_i s0 s1 heq
    cases h0 : pyInt s0 with
    | error e => simp only [h0, Bind.bind, Except.bind] at h; exact Except.noConfusion h
    | ok v =>
      cases h1 : pyInt s1 with
      | error e => simp only [h0, h1, Bind.bind, Except.bind] at h; exact Except.noConfusion h
      | ok w =>
        simp only [h0, h1, Bind.bind, Except.bind] at h
        obtain ⟨b1, b2, b3, _⟩ := datetime_time_ok_bounds h
        exact ⟨b1, b2, b3⟩
  · rename_i s0 s1 s2 heq
    cases h0 : pyInt s0 with
    | error e => simp only [h0, Bind.bind, Except.bind] at h; exact Except.noConfusion h
    | ok v =>
      cases h1 : pyInt s1 with
      | error e => simp only [h0, h1, Bind.bind, Except.bind] at h; exact Except.noConfusion h
      | ok w =>
        cases h2 : pyInt s2 with
        | error e =>
          simp only [h0, h1, h2, Bind.bind, Except.bind] at h
          exact Except.noConfusion h
        | ok u =>
          simp only [h0, h1, h2, Bind.bind, Except.bind] at h
          obtain ⟨b1, b2, b3, _⟩ := datetime_time_ok_bounds h
          exact ⟨b1, b2, b3⟩
  · exact Except.noConfusion h

lemma ffsplit_parse_isoformat {t : PyTime}
    (h1 : t.hour < 24) (h2 : t.minute < 60) (h3 : t.second < 60) :
    Ffsplit.parse_time (Ffsplit.isoformat t) = .ok t := by
  obtain ⟨th, tm, ts⟩ := t
  simp only at h1 h2 h3
  have Hh := pyInt_zfill_two th (h1.trans (by norm_num))
  have Hm := pyInt_zfill_two tm h2
  have Hs := pyInt_zfill_two ts h3
  rw [Ffsplit.parse_time, Ffsplit.isoformat]
  simp only
  rw [pySplit_colon_three _ _ _ Hh.2 Hm.2 Hs.2]
  simp only [Bind.bind, Except.bind, Hh.1, Hm.1, Hs.1]
  rw [datetime_time_ok_of_bounds (by positivity) (by exact_mod_cast h1)
    (by positivity) (by exact_mod_cast h2) (by positivity) (by exact_mod_cast h3)]
  simp

lemma t_to_td_lt {t : PyTime} (h1 : t.hour < 24) (h2 : t.minute < 60)
    (h3 : t.second < 60) : 0 ≤ Ffsplit.t_to_td t ∧ Ffsplit.t_to_td t < 86400 := by
  rw [Ffsplit.t_to_td]
  constructor <;> [positivity; omega]

lemma delta_time_spec {t1 t2 : PyTime}
    (b1 : t1.hour < 24 ∧ t1.minute < 60 ∧ t1.second < 60)
    (b2 : t2.hour < 24 ∧ t2.minute < 60 ∧ t2.second < 60) :
    Ffsplit.delta_time t1 t2 =
      .ok (seconds_to_time (Ffsplit.t_to_td t2 - Ffsplit.t_to_td t1).natAbs) ∧
    (Ffsplit.t_to_td (seconds_to_time (Ffsplit.t_to_td t2 - Ffsplit.t_to_td t1).natAbs) : Int) =
      ((Ffsplit.t_to_td t2 - Ffsplit.t_to_td t1).natAbs : Int) ∧
    (Ffsplit.t_to_td t2 - Ffsplit.t_to_td t1).natAbs < 86400 := by
  obtain ⟨l1, u1⟩ := t_to_td_lt b1.1 b1.2.1 b1.2.2
  obtain ⟨l2, u2⟩ := t_to_td_lt b2.1 b2.2.1 b2.2.2
  have habs : (Ffsplit.t_to_td t2 - Ffsplit.t_to_td t1).natAbs < 86400 := by omega
  refine ⟨?_, ?_, habs⟩
  · simp only [Ffsplit.delta_time]
    rw [if_pos (by omega)]
    rw [datetime_time_ok_of_bounds (by positivity) (by omega) (by positivity)
      (by omega) (by positivity) (by omega)]
    simp only [seconds_to_time, Int.toNat_natCast]
  · rw [Ffsplit.t_to_td, seconds_to_time]
    push_cast
    omega

lemma filter_fragments_length (i : Nat) (cfg : List (Int × Int)) :
    (Ffcut.filter_fragments i cfg).length = 2 * cfg.length := by
  induction cfg generalizing i with
  | nil => rfl
  | cons seg rest ih =>
    obtain ⟨a, b⟩ := seg
    simp [Ffcut.filter_fragments, ih]
    omega

lemma nat_log_10_5 : Nat.log 10 5 = 0 :=
  Nat.log_eq_of_pow_le_of_lt_pow (by norm_num) (by norm_num)

lemma nat_log_10_15 : Nat.log 10 15 = 1 :=
  Nat.log_eq_of_pow_le_of_lt_pow (by norm_num) (by norm_num)

lemma nat_log_10_150 : Nat.log 10 150 = 2 :=
  Nat.log_eq_of_pow_le_of_lt_pow (by norm_num) (by norm_num)

end MiscScripts

namespace MiscScripts

/-! ### The claims -/

/-- Claim C1: for every non-empty SegmentList, the graph-plan filter
expression is the per-segment trim fragments followed by exactly the
label pairs `[v0][a0]…[v{n-1}][a{n-1}]` in segment order and a
concatenation node whose `n=` count equals the number of segments. -/
theorem c1_concat_count_eq_segments (cfg : List (Int × Int)) (_hne : cfg ≠ []) :
    Ffcut.build_filter cfg =
      String.join (Ffcut.filter_fragments 0 cfg) ++ concat_node cfg.length := by
  rw [Ffcut.build_filter, concat_node]
  rw [filter_fragments_length]
  rw [Nat.mul_div_cancel_left _ (by norm_num)]
  rw [join_append_singleton]
  simp [string_append_assoc, toString]

/-- Witness for C1 at the one-segment list `[(0, 10)]`. -/
theorem c1_concat_count_eq_segments_witness :
    ([((0 : Int), (10 : Int))] ≠ ([] : List (Int × Int))) ∧
    Ffcut.build_filter [((0 : Int), (10 : Int))] =
      "[0:v]trim=0:10,setpts=PTS-STARTPTS[v0];[0:a]atrim=0:10,asetpts=PTS-STARTPTS[a0];[v0][a0]concat=n=1:v=1:a=1[out]" :=
  ⟨by decide, (c1_concat_count_eq_segments [((0 : Int), (10 : Int))] (by decide)).trans (by rfl)⟩

/-- Claim C2: the graph-plan encode command's `-b:v` argument is exactly
the probed source bit rate minus 128000, in exact integer arithmetic; for
a probed bit rate of 5000000 it is exactly "4872000". -/
theorem c2_bitrate_headroom (b : Int) (src : String) (cfg : List (Int × Int))
    (dest : String) :
    (Ffcut.build_cmd b src cfg dest).get? 9 = some "-b:v" ∧
    (Ffcut.build_cmd b src cfg dest).get? 10 = some (toString (b - 128000)) ∧
    (Ffcut.build_cmd 5000000 src cfg dest).get? 10 = some "4872000" :=
  ⟨rfl, rfl, rfl⟩

/-- Claim C3: in the graph plan, any segment whose end time is not
strictly greater than its start time makes `parse_cfg` fail, so a
successfully parsed configuration contains only strictly increasing
segments and no command is ever built from a violating one. -/
theorem c3_graph_rejects_end_le_start (lines : List String) (cfg : List (Int × Int))
    (h : Ffcut.parse_cfg lines = .ok cfg) : ∀ p ∈ cfg, p.1 < p.2 := by
  induction lines generalizing cfg with
  | nil =>
    simp [Ffcut.parse_cfg] at h
    subst h
    simp
  | cons row rest ih =>
    rw [Ffcut.parse_cfg] at h
    split at h
    · exact ih _ h
    · split at h
      · rename_i t0 t1 hsp
        cases h0 : Ffcut.parse_time t0 with
        | error e =>
          simp only [h0, Bind.bind, Except.bind] at h
          exact Except.noConfusion h
        | ok start =>
          cases h1 : Ffcut.parse_time t1 with
          | error e =>
            simp only [h0, h1, Bind.bind, Except.bind] at h
            exact Except.noConfusion h
          | ok stop =>
            simp only [h0, h1, Bind.bind, Except.bind] at h
            split at h
            · rename_i hlt
              cases h2 : Ffcut.parse_cfg rest with
              | error e =>
                simp only [h2] at h
                exact Except.noConfusion h
              | ok tail =>
                simp only [h2, pure, Except.pure, Except.ok.injEq] at h
                subst h
                intro p hp
                rcases List.mem_cons.mp hp with hp | hp
                · subst hp; exact hlt
                · exact ih tail h2 p hp
            · exact Except.noConfusion h
      · exact Except.noConfusion h

/-- Witness for C3: the line `0:00 0:10` parses and its one segment has
start strictly below end. -/
theorem c3_graph_rejects_end_le_start_witness :
    Ffcut.parse_cfg ["0:00 0:10"] = .ok [((0 : Int), 10)] ∧ (0 : Int) < 10 :=
  ⟨rfl, c3_graph_rejects_end_le_start ["0:00 0:10"] [((0 : Int), 10)] rfl
    ((0 : Int), 10) (by simp)⟩

/-- Claim C4: in the independent-trim plan, the clip duration computed by
`delta_time` for any two parser-produced times is the absolute difference
of the two times of day, decomposed into `h:m:s`; a segment with
`end < start` is tolerated, not rejected. -/
theorem c4_trim_duration_abs_diff (s1 s2 : String) (t1 t2 : PyTime)
    (hp1 : Ffsplit.parse_time s1 = .ok t1) (hp2 : Ffsplit.parse_time s2 = .ok t2) :
    Ffsplit.delta_time t1 t2 =
      .ok (seconds_to_time (Ffsplit.t_to_td t2 - Ffsplit.t_to_td t1).natAbs) ∧
    (Ffsplit.t_to_td (seconds_to_time (Ffsplit.t_to_td t2 - Ffsplit.t_to_td t1).natAbs) : Int) =
      ((Ffsplit.t_to_td t2 - Ffsplit.t_to_td t1).natAbs : Int) := by
  have h := delta_time_spec (ffsplit_parse_time_bounds hp1) (ffsplit_parse_time_bounds hp2)
  exact ⟨h.1, h.2.1⟩

/-- Witness for C4 at the claim's own example: start `0:10`, end `0:05`
yields a 5-second duration. -/
theorem c4_trim_duration_abs_diff_witness :
    Ffsplit.parse_time "0:10" = .ok ⟨0, 0, 10⟩ ∧
    Ffsplit.parse_time "0:05" = .ok ⟨0, 0, 5⟩ ∧
    Ffsplit.delta_time ⟨0, 0, 10⟩ ⟨0, 0, 5⟩ = .ok ⟨0, 0, 5⟩ :=
  ⟨rfl, rfl,
    ((c4_trim_duration_abs_diff "0:10" "0:05" ⟨0, 0, 10⟩ ⟨0, 0, 5⟩ rfl rfl).1).trans
      (by rfl)⟩

/-- Claim C5, counterexample: the single-field token `90` is 90 raw
seconds in the graph-plan parser, but the trim-plan parser hands it to
`datetime.time(0, 0, 90)`, which raises `ValueError`; it does not yield a
90-second time value in both utilities. -/
theorem c5_counterexample :
    Ffcut.parse_time "90" = .ok 90 ∧
    Ffsplit.parse_time "90" = .error "ValueError: time field out of range" :=
  ⟨rfl, rfl⟩

/-- Claim C5 as amended: a colon-free token that `int()` accepts is read
as raw seconds by the graph-plan parser with no range limit, while the
trim-plan parser accepts it only when it lies in `0..59` and raises
`ValueError` otherwise. -/
theorem c5_amended_single_field (s : String) (n : Int)
    (hc : ':' ∉ s.toList) (hn : pyInt s = .ok n) :
    Ffcut.parse_time s = .ok n ∧
    (0 ≤ n → n < 60 → Ffsplit.parse_time s = .ok ⟨0, 0, n.toNat⟩) ∧
    (n < 0 ∨ 60 ≤ n → Ffsplit.parse_time s = .error "ValueError: time field out of range") := by
  have hsp : pySplit ':' s = [s] := pySplit_of_not_mem hc
  refine ⟨?_, ?_, ?_⟩
  · rw [Ffcut.parse_time, hsp]
    exact hn
  · intro hn0 hn60
    rw [Ffsplit.parse_time, hsp]
    simp only [Bind.bind, Except.bind, hn]
    have := datetime_time_ok_of_bounds (le_refl 0) (by norm_num) (le_refl 0)
      (by norm_num) hn0 hn60
    simpa using this
  · intro hbad
    rw [Ffsplit.parse_time, hsp]
    simp only [Bind.bind, Except.bind, hn]
    rw [datetime_time, if_neg]
    intro hcond
    omega

/-- Witness for the amended C5 at the token `90`. -/
theorem c5_amended_single_field_witness :
    (':' ∉ "90".toList) ∧ pyInt "90" = .ok 90 ∧
    Ffcut.parse_time "90" = .ok 90 ∧
    Ffsplit.parse_time "90" = .error "ValueError: time field out of range" := by
  refine ⟨by decide, rfl, ?_, ?_⟩
  · exact (c5_amended_single_field "90" 90 (by decide) rfl).1
  · exact (c5_amended_single_field "90" 90 (by decide) rfl).2.2 (by norm_num)

/-- Claim C6, counterexample: the 3-token line `0:00 0:10 foo` is a
malformed-segment error in the graph-plan parser (which demands exactly 2
tokens) even though the trim-plan parser accepts it, so the two flavors
do not share the 2-or-3-token acceptance rule. -/
theorem c6_counterexample :
    (pySplit ' ' "0:00 0:10 foo").length = 3 ∧
    Ffcut.parse_cfg ["0:00 0:10 foo"] = .error "A video segment is malformed" ∧
    Ffsplit.parse_cfg "0:00 0:10 foo" = .ok [(⟨0, 0, 0⟩, ⟨0, 0, 10⟩, "foo-")] :=
  ⟨rfl, rfl, rfl⟩

/-- Claim C6 as amended: on a non-blank line, the graph-plan parser
raises its malformed-segment error whenever the line does not split into
exactly 2 space-separated tokens, and the trim-plan parser raises its own
whenever the count is neither 2 nor 3; so 0, 1 and 4-or-more tokens abort
both flavors (witnessed by the 4-token line `0:00 0:10 foo bar`). -/
theorem c6_amended_token_counts (line : String) (hnb : pyStrip line ≠ "") :
    ((pySplit ' ' line).length ≠ 2 →
      Ffcut.parse_cfg [line] = .error "A video segment is malformed") ∧
    ('\n' ∉ line.toList → (pySplit ' ' line).length ≠ 2 → (pySplit ' ' line).length ≠ 3 →
      Ffsplit.parse_cfg line = .error "There should be ") := by
  constructor
  · intro hlen
    rw [Ffcut.parse_cfg, if_neg hnb]
    rcases hsp : pySplit ' ' line with _ | ⟨a, _ | ⟨b, _ | ⟨c, tl⟩⟩⟩
    · rfl
    · rfl
    · rw [hsp] at hlen; simp at hlen
    · rfl
  · intro hnl hl2 hl3
    rw [Ffsplit.parse_cfg, pySplit_of_not_mem hnl, Ffsplit.parse_cfg_lines, if_neg hnb]
    rcases hsp : pySplit ' ' line with _ | ⟨a, _ | ⟨b, _ | ⟨c, _ | ⟨d, tl⟩⟩⟩⟩
    · rfl
    · rfl
    · rw [hsp] at hl2; simp at hl2
    · rw [hsp] at hl3; simp at hl3
    · rfl

/-- Witness for the amended C6 at the 4-token line `0:00 0:10 foo bar`,
rejected by both flavors. -/
theorem c6_amended_token_counts_witness :
    pyStrip "0:00 0:10 foo bar" ≠ "" ∧
    Ffcut.parse_cfg ["0:00 0:10 foo bar"] = .error "A video segment is malformed" ∧
    Ffsplit.parse_cfg "0:00 0:10 foo bar" = .error "There should be " := by
  refine ⟨by decide, ?_, ?_⟩
  · exact (c6_amended_token_counts "0:00 0:10 foo bar" (by decide)).1 (by decide)
  · exact (c6_amended_token_counts "0:00 0:10 foo bar" (by decide)).2
      (by decide) (by decide) (by decide)

/-- Claim C7, counterexample: a configuration of only blank lines parses
to the empty segment list and the trim-plan utility then produces an
empty-but-successful plan — it has no empty-configuration check. -/
theorem c7_counterexample :
    Ffsplit.parse_cfg "\n\n" = .ok [] ∧
    Ffsplit.main_plan "v.mp4" "\n\n" "export" = .ok [] :=
  ⟨rfl, rfl⟩

/-- Claim C7 as amended: only the graph-plan utility aborts (exit code 1)
on an empty parsed configuration; the trim-plan utility silently yields
an empty command plan. -/
theorem c7_amended_empty_config :
    (∀ (b : Int) (src : String) (lines : List String) (dest : String),
      Ffcut.parse_cfg lines = .ok [] →
      Ffcut.main_plan b src lines dest =
        .error "Received empty configuration file. Aborting") ∧
    (∀ (src content dest : String),
      Ffsplit.parse_cfg content = .ok [] →
      Ffsplit.main_plan src content dest = .ok []) := by
  constructor
  · intro b src lines dest h
    simp only [Ffcut.main_plan, Bind.bind, Except.bind, h]
    rfl
  · intro src content dest h
    simp only [Ffsplit.main_plan, Bind.bind, Except.bind, h]
    rfl

/-- Witness for the amended C7 at blank-only configurations. -/
theorem c7_amended_empty_config_witness :
    Ffcut.parse_cfg [" ", ""] = .ok [] ∧
    Ffcut.main_plan 5000000 "v.mp4" [" ", ""] "export" =
      .error "Received empty configuration file. Aborting" ∧
    Ffsplit.parse_cfg "\n \n" = .ok [] ∧
    Ffsplit.main_plan "v.mp4" "\n \n" "export" = .ok [] := by
  refine ⟨rfl, ?_, rfl, ?_⟩
  · exact c7_amended_empty_config.1 5000000 "v.mp4" [" ", ""] "export" rfl
  · exact c7_amended_empty_config.2 "v.mp4" "\n \n" "export" rfl

set_option maxRecDepth 4000 in
/-- Claim C8, counterexample: in a 150-segment trim plan the claim's
formula demands index width `max(2, floor(log10(150)) + 1) = 3`, but
`get_dest_name` pads with `str(i).zfill(2)` regardless of the count, so
index 5 appears as `05`, not `005`, in the output filename. -/
theorem c8_counterexample :
    cfg150.length = 150 ∧
    Ffsplit.get_dest_name "v.mp4" 5 "d" "" = "d/v-05.mp4" ∧
    zfill (max 2 (Nat.log 10 150 + 1)) (toString (5 : Nat)) = "005" ∧
    ("d/v-05.mp4" : String) ≠ "d/v-005.mp4" ∧
    firstCmd (Ffsplit.consutruct_commands "v.mp4" cfg150 "d") =
      some ["ffmpeg", "-ss", "00:00:00", "-i", "v.mp4", "-to", "00:00:01",
        "-c", "copy", "d/v-00.mp4"] := by
  refine ⟨rfl, rfl, ?_, by decide, rfl⟩
  rw [nat_log_10_150]
  rfl

/-- Claim C8 as amended: the trim-plan filename index is always padded to
width 2 — `max(2, len(str(i)))`, independent of the segment count — while
the `max(2, floor(log10(count)) + 1)` convention belongs to the
bulk-rename utility, where it gives widths 2, 2 and 3 for counts 5, 15
and 150. -/
theorem c8_amended_padding (src dest pfx : String) (i : Nat) :
    Ffsplit.get_dest_name src i dest pfx =
      osPathJoin dest (pfx ++ (splitext (basename src)).1 ++ "-" ++
        zfill 2 (toString i) ++ (splitext (basename src)).2) ∧
    (zfill 2 (toString i)).length = max 2 (toString i).length ∧
    Rnsort.pad_width 5 = 2 ∧ Rnsort.pad_width 15 = 2 ∧ Rnsort.pad_width 150 = 3 := by
  refine ⟨rfl, zfill_length 2 (toString i), ?_, ?_, ?_⟩ <;>
    simp [Rnsort.pad_width, nat_log_10_5, nat_log_10_15, nat_log_10_150]

/-- Claim C9: any compact time text the trim-plan parser accepts
round-trips — serializing the parsed value with `isoformat` to the
normalized `HH:MM:SS` form and re-parsing yields the same time value. -/
theorem c9_roundtrip (s : String) (t : PyTime)
    (h : Ffsplit.parse_time s = .ok t) :
    Ffsplit.parse_time (Ffsplit.isoformat t) = .ok t := by
  obtain ⟨b1, b2, b3⟩ := ffsplit_parse_time_bounds h
  exact ffsplit_parse_isoformat b1 b2 b3

/-- Witness for C9 at `2:12:05`. -/
theorem c9_roundtrip_witness :
    Ffsplit.parse_time "2:12:05" = .ok ⟨2, 12, 5⟩ ∧
    Ffsplit.parse_time (Ffsplit.isoformat ⟨2, 12, 5⟩) = .ok ⟨2, 12, 5⟩ :=
  ⟨rfl, c9_roundtrip "2:12:05" ⟨2, 12, 5⟩ rfl⟩

/-- Claim C10: for any two times the trim-plan parser can produce, the
absolute difference is strictly below 24 hours, so the `Time is too
large` branch of `delta_time` is unreachable. -/
theorem c10_overflow_unreachable (s1 s2 : String) (t1 t2 : PyTime)
    (hp1 : Ffsplit.parse_time s1 = .ok t1) (hp2 : Ffsplit.parse_time s2 = .ok t2) :
    (Ffsplit.t_to_td t2 - Ffsplit.t_to_td t1).natAbs < 24 * 3600 ∧
    Ffsplit.delta_time t1 t2 ≠ .error "Time is too large" := by
  have h := delta_time_spec (ffsplit_parse_time_bounds hp1) (ffsplit_parse_time_bounds hp2)
  refine ⟨by omega, ?_⟩
  rw [h.1]
  exact fun hc => Except.noConfusion hc

/-- Witness for C10 at the extreme pair `23:59:59` and `0:00`. -/
theorem c10_overflow_unreachable_witness :
    Ffsplit.parse_time "23:59:59" = .ok ⟨23, 59, 59⟩ ∧
    Ffsplit.parse_time "0:00" = .ok ⟨0, 0, 0⟩ ∧
    (Ffsplit.t_to_td ⟨0, 0, 0⟩ - Ffsplit.t_to_td ⟨23, 59, 59⟩).natAbs < 24 * 3600 ∧
    Ffsplit.delta_time ⟨23, 59, 59⟩ ⟨0, 0, 0⟩ ≠ .error "Time is too large" := by
  have h := c10_overflow_unreachable "23:59:59" "0:00" ⟨23, 59, 59⟩ ⟨0, 0, 0⟩ rfl rfl
  exact ⟨rfl, rfl, h.1, h.2⟩

end MiscScripts
